import Mathlib

/-!
Verification development for the Logitech G-Hub Profile Editor
(src/LGHUB_Profile_Editor_V3.py).

The program edits "profiles": entries of the JSON array found at
document["applications"]["applications"] inside each row of the DATA
table of G-Hub's settings.db.  The database helpers
(load_profiles_from_db, save_profile_to_db) and the mutating GUI
callbacks (add_entry, delete_entry, save_changes, browse_icon,
clear_icon) are embedded below as pure functions over an explicit
database state.  Machine-level aspects that the embedded functions do
not depend on are abstracted as follows:

* A row's BLOB is classified by how lines 94-102 of the source treat
  it: falsy (skipped), failing UTF-8 decode or JSON parse (skipped and
  logged), or parsing to a JSON document.  The byte-level decoder is
  not re-implemented; no verified property depends on which byte
  strings parse.
* json.dumps of a parsed JSON tree cannot raise and round-trips
  through json.loads, so a successful write stores a BLOB that parses
  back to the written document.
* sqlite3 exceptions (connection/execute/commit failures) are modelled
  by a Boolean environment parameter connOk.
* Python dicts are modelled as key-ordered association lists with
  distinct keys, as produced by json.loads; str.lower, str.strip and
  the regex character classes are modelled on their ASCII fragment.
* In-place mutation through an aliased profile record (the entry's
  profileRecord is a live reference into its owning document) is
  rendered as a functional update at the record's position in the
  owning list.
-/

/-- JSON values as produced by json.loads: objects are key-ordered
association lists (Python dicts preserve insertion order and have
distinct keys). -/
inductive Json where
  | null
  | bool (b : Bool)
  | num (n : Int)
  | str (s : String)
  | arr (elems : List Json)
  | obj (fields : List (String × Json))
deriving Repr

mutual

/-- Decidable structural equality on JSON values (Python == on values
decoded by json.loads). -/
def jsonDecEq : (a b : Json) → Decidable (a = b)
  | .null, .null => isTrue rfl
  | .bool x, .bool y =>
    match decEq x y with
    | isTrue h => isTrue (by rw [h])
    | isFalse h => isFalse (by intro hh; injection hh; contradiction)
  | .num x, .num y =>
    match decEq x y with
    | isTrue h => isTrue (by rw [h])
    | isFalse h => isFalse (by intro hh; injection hh; contradiction)
  | .str x, .str y =>
    match decEq x y with
    | isTrue h => isTrue (by rw [h])
    | isFalse h => isFalse (by intro hh; injection hh; contradiction)
  | .arr xs, .arr ys =>
    match jsonDecEqList xs ys with
    | isTrue h => isTrue (by rw [h])
    | isFalse h => isFalse (by intro hh; injection hh; contradiction)
  | .obj xs, .obj ys =>
    match jsonDecEqFields xs ys with
    | isTrue h => isTrue (by rw [h])
    | isFalse h => isFalse (by intro hh; injection hh; contradiction)
  | .null, .bool _ | .null, .num _ | .null, .str _ | .null, .arr _ | .null, .obj _
  | .bool _, .null | .bool _, .num _ | .bool _, .str _ | .bool _, .arr _ | .bool _, .obj _
  | .num _, .null | .num _, .bool _ | .num _, .str _ | .num _, .arr _ | .num _, .obj _
  | .str _, .null | .str _, .bool _ | .str _, .num _ | .str _, .arr _ | .str _, .obj _
  | .arr _, .null | .arr _, .bool _ | .arr _, .num _ | .arr _, .str _ | .arr _, .obj _
  | .obj _, .null | .obj _, .bool _ | .obj _, .num _ | .obj _, .str _ | .obj _, .arr _ =>
    isFalse (by intro h; exact Json.noConfusion h)
termination_by structural a => a

/-- Componentwise decidable equality for JSON array elements. -/
def jsonDecEqList : (xs ys : List Json) → Decidable (xs = ys)
  | [], [] => isTrue rfl
  | _ :: _, [] => isFalse (by intro h; exact List.noConfusion h)
  | [], _ :: _ => isFalse (by intro h; exact List.noConfusion h)
  | x :: xs, y :: ys =>
    match jsonDecEq x y, jsonDecEqList xs ys with
    | isTrue h1, isTrue h2 => isTrue (by rw [h1, h2])
    | isFalse h1, _ => isFalse (by intro h; injection h; contradiction)
    | _, isFalse h2 => isFalse (by intro h; injection h; contradiction)
termination_by structural a => a

/-- Componentwise decidable equality for JSON object fields. -/
def jsonDecEqFields : (xs ys : List (String × Json)) → Decidable (xs = ys)
  | [], [] => isTrue rfl
  | _ :: _, [] => isFalse (by intro h; exact List.noConfusion h)
  | [], _ :: _ => isFalse (by intro h; exact List.noConfusion h)
  | (k1, v1) :: xs, (k2, v2) :: ys =>
    match decEq k1 k2, jsonDecEq v1 v2, jsonDecEqFields xs ys with
    | isTrue h1, isTrue h2, isTrue h3 => isTrue (by rw [h1, h2, h3])
    | isFalse h1, _, _ =>
      isFalse (by intro h; injection h with h4 h5; exact h1 (congrArg Prod.fst h4))
    | _, isFalse h2, _ =>
      isFalse (by intro h; injection h with h4 h5; exact h2 (congrArg Prod.snd h4))
    | _, _, isFalse h3 => isFalse (by intro h; injection h; contradiction)
termination_by structural a => a

end

instance : DecidableEq Json := jsonDecEq

/-- Python dict lookup d.get(key): the value at the first (only)
binding of key, none when the key is absent. -/
def lookupField : List (String × Json) → String → Option Json
  | [], _ => none
  | (k, v) :: fs, key => if k = key then some v else lookupField fs key

/-- Python dict item assignment d[key] = v: overwrite the value in
place when the key exists (its position is kept), otherwise append the
new binding at the end (insertion order). -/
def setField : List (String × Json) → String → Json → List (String × Json)
  | [], key, v => [(key, v)]
  | (k, w) :: fs, key, v =>
    if k = key then (key, v) :: fs else (k, w) :: setField fs key v

/-- ASCII lower-casing of one character, the fragment of Python
str.lower exercised by the profile names handled here. -/
def pyCharLower (c : Char) : Char :=
  if 'A' ≤ c ∧ c ≤ 'Z' then Char.ofNat (c.toNat + 32) else c

/-- Python str.lower on the ASCII fragment, over the code points of a
string. -/
def pyLower (s : String) : List Char := s.data.map pyCharLower

/-- Code-point lexicographic string comparison, Python's ordering on
the precomputed sort keys of list.sort. -/
def strLe : List Char → List Char → Bool
  | [], _ => true
  | _ :: _, [] => false
  | a :: as, b :: bs => if a = b then strLe as bs else decide (a < b)

/-- The FILE column BLOB of one row of the DATA table, classified the
way load_profiles_from_db (src lines 94-102) treats it: falsy (NULL or
empty bytes, skipped at line 95), failing UTF-8 decode or json.loads
(caught and skipped at lines 97-102), or parsing to a JSON document. -/
inductive Blob where
  | absent
  | malformed
  | doc (j : Json)
deriving DecidableEq, Repr

/-- One row of the DATA table: its _id and its FILE blob. -/
abbrev DbRow := Nat × Blob

/-- One element of the all_profiles list built by
load_profiles_from_db (src lines 109-113). -/
structure Entry where
  db_row_id : Nat
  entire_json : Json
  profile : Json
deriving DecidableEq, Repr

/-- Flattening of one parsed row document, src lines 104-113: an entry
per element of parsed_data["applications"]["applications"] when that
path holds a dict containing a list, no entries otherwise.  Returns
none when the top-level JSON value is not an object, where
parsed_data.get raises an uncaught AttributeError. -/
def collectRow (row_id : Nat) (j : Json) : Option (List Entry) :=
  match j with
  | .obj fs =>
    match lookupField fs "applications" with
    | some (.obj afs) =>
      match lookupField afs "applications" with
      | some (.arr l) => some (l.map fun prof => ⟨row_id, j, prof⟩)
      | some _ => some []
      | none => some []
    | some _ => some []
    | none => some []
  | _ => none

/-- Flattening of all fetched rows, src lines 93-113: falsy and
unparsable blobs are skipped, each parsed document contributes its
entries in row order. -/
def collectRows : List DbRow → Option (List Entry)
  | [] => some []
  | (_, .absent) :: rest => collectRows rest
  | (_, .malformed) :: rest => collectRows rest
  | (rid, .doc j) :: rest =>
    match collectRow rid j with
    | none => none
    | some es =>
      match collectRows rest with
      | none => none
      | some rest_es => some (es ++ rest_es)

/-- Sort key of one collected element, src line 116: the lambda
p["profile"].get("name", "").lower() raises when the profile is not a
dict or its name value is not a string; otherwise it is the
lower-cased name, defaulting to the empty string when the name key is
absent. -/
def sortKey : Json → Option (List Char)
  | .obj fs =>
    match lookupField fs "name" with
    | none => some []
    | some (.str s) => some (pyLower s)
    | some _ => none
  | _ => none

/-- Keys of all collected elements in list order: CPython's list.sort
evaluates the key function on every element before comparing, and the
first raising element aborts the sort. -/
def allSortKeys : List Entry → Option (List (List Char))
  | [] => some []
  | e :: es =>
    match sortKey e.profile, allSortKeys es with
    | some k, some ks => some (k :: ks)
    | _, _ => none

/-- Total sort key used once allSortKeys has succeeded. -/
def entryKey (e : Entry) : List Char := (sortKey e.profile).getD []

/-- Comparison on entries used by the sort at src line 116. -/
def entryLe (a b : Entry) : Prop := strLe (entryKey a) (entryKey b) = true

instance : DecidableRel entryLe := fun a b =>
  inferInstanceAs (Decidable (strLe (entryKey a) (entryKey b) = true))

/-- The embedding of load_profiles_from_db, src lines 76-118, after a
successful SELECT: flatten all rows, then sort by the per-profile key.
The stable ascending sort of CPython is rendered by insertion sort,
which is stable and agrees with every stable sort for a total
preorder.  Returns none when flattening or a key computation raises. -/
def load_profiles_from_db (rows : List DbRow) : Option (List Entry) :=
  match collectRows rows with
  | none => none
  | some es =>
    match allSortKeys es with
    | none => none
    | some _ => some (List.insertionSort entryLe es)

/-- Outcome of save_profile_to_db as the caller observes it through
the log: the first try block fails (encode error), the second fails
(database error), or the row update is reported done. -/
inductive SaveOutcome where
  | serializeError
  | dbError
  | ok
deriving DecidableEq, Repr

/-- The embedding of save_profile_to_db, src lines 120-140.
json.dumps applied to a tree decoded by json.loads cannot raise, so
the first try block (lines 124-129) always succeeds and stores bytes
that parse back to the document; the sqlite3 calls of the second try
block are abstracted by connOk.  The UPDATE statement overwrites the
FILE blob of every row whose _id matches; its affected-row count is
never inspected, so a match on zero rows still reaches the success
log at line 138. -/
def save_profile_to_db (connOk : Bool) (db : List DbRow) (row_id : Nat)
    (entire_json : Json) : SaveOutcome × List DbRow :=
  if connOk then
    (.ok, db.map fun r => if r.1 = row_id then (r.1, .doc entire_json) else r)
  else
    (.dbError, db)

/-- Number of rows an UPDATE ... WHERE _id = row_id would affect. -/
def affectedRows (db : List DbRow) (row_id : Nat) : Nat :=
  (db.filter fun r => r.1 = row_id).length

/-- Replacement of the element at position i, leaving every other
position alone: the effect on the owning list of mutating the aliased
element in place. -/
def updateAt (f : Json → Json) : List Json → Nat → List Json
  | [], _ => []
  | x :: xs, 0 => f x :: xs
  | x :: xs, n + 1 => x :: updateAt f xs n

/-- Lines 469-471 of save_changes on the aliased profile record: the
three editable fields are assigned the entry-widget strings.  Item
assignment on a non-dict would raise; load only yields object
profiles (their sort key computation already requires it). -/
def setProfileFields (n a p : String) : Json → Json
  | .obj pfs =>
    .obj (setField (setField (setField pfs "name" (.str n))
      "applicationPath" (.str a)) "posterPath" (.str p))
  | other => other

/-- Functional rendering of an in-place mutation of the profile record
at position i of doc["applications"]["applications"]: the record is a
shared reference into its owning document, so mutating it rewrites the
document at exactly that position.  Identity on shapes that cannot
hold an entry produced by load. -/
def mutateProfileAt (doc : Json) (i : Nat) (f : Json → Json) : Json :=
  match doc with
  | .obj fs =>
    match lookupField fs "applications" with
    | some (.obj afs) =>
      match lookupField afs "applications" with
      | some (.arr l) =>
        .obj (setField fs "applications"
          (.obj (setField afs "applications" (.arr (updateAt f l i)))))
      | _ => doc
    | _ => doc
  | _ => doc

/-- The embedding of save_changes, src lines 459-473, for the entry at
position i of the owning document's list: write the three fields
through the alias, then persist the owning row. -/
def save_changes (connOk : Bool) (db : List DbRow) (row_id : Nat)
    (doc : Json) (i : Nat) (n a p : String) : SaveOutcome × List DbRow :=
  save_profile_to_db connOk db row_id (mutateProfileAt doc i (setProfileFields n a p))

/-- Python membership test prof_to_delete in apps_list (src line 361),
by value equality. -/
def pyIn (x : Json) (l : List Json) : Bool := l.any fun y => y = x

/-- Python list.remove (src line 362): drop the first element equal to
x, keeping everything else. -/
def pyRemove (x : Json) : List Json → List Json
  | [] => []
  | y :: ys => if y = x then ys else y :: pyRemove x ys

/-- The document mutation of delete_entry, src lines 357-363:
fetch the nested list with defaults, remove the first value-equal
occurrence of the record if present, then re-attach the list through
item assignment.  Returns none where the Python code raises: the
top-level value is not a dict, the applications key is absent (line
363 indexes it without a default, a KeyError), or the nested values
are of the wrong shape for attribute access or item assignment.  None
of these arise for an entry produced by load. -/
def delete_entry_doc (entire_json prof_to_delete : Json) : Option Json :=
  match entire_json with
  | .obj fs =>
    match lookupField fs "applications" with
    | some (.obj afs) =>
      match lookupField afs "applications" with
      | some (.arr l) =>
        let l2 := if pyIn prof_to_delete l then pyRemove prof_to_delete l else l
        some (.obj (setField fs "applications"
          (.obj (setField afs "applications" (.arr l2)))))
      | some _ => none
      | none =>
        some (.obj (setField fs "applications"
          (.obj (setField afs "applications" (.arr [])))))
    | some _ => none
    | none => none
  | _ => none

/-- The embedding of delete_entry, src lines 346-365, after the user
confirmed: mutate the owning document, then persist the owning row. -/
def delete_entry (connOk : Bool) (db : List DbRow) (row_id : Nat)
    (entire_json prof_to_delete : Json) : Option (SaveOutcome × List DbRow) :=
  match delete_entry_doc entire_json prof_to_delete with
  | none => none
  | some doc2 => some (save_profile_to_db connOk db row_id doc2)

/-- The seed record appended by add_entry, src lines 318-324. -/
def new_profile : Json :=
  .obj [("applicationId", .str "new-app-id"), ("applicationPath", .str ""),
    ("isCustom", .bool true), ("name", .str "New Entry"), ("posterPath", .str "")]

/-- The document mutation of add_entry, src lines 314-327: fetch the
nested dict and list with defaults, append the seed record, re-attach
list and dict (synthesizing them when the defaults were taken).
Returns none where attribute access or append would raise on a
wrongly-shaped value; such shapes never occur for the document of an
entry produced by load. -/
def add_to_doc (doc : Json) : Option Json :=
  match doc with
  | .obj fs =>
    match lookupField fs "applications" with
    | some (.obj afs) =>
      match lookupField afs "applications" with
      | some (.arr l) =>
        some (.obj (setField fs "applications"
          (.obj (setField afs "applications" (.arr (l ++ [new_profile]))))))
      | some _ => none
      | none =>
        some (.obj (setField fs "applications"
          (.obj (setField afs "applications" (.arr [new_profile])))))
    | some _ => none
    | none =>
      some (.obj (setField fs "applications"
        (.obj [("applications", .arr [new_profile])])))
  | _ => none

/-- Observable outcome of the add_entry callback: the guard fired (the
"No DB Rows" message box, nothing written), or the seed was attached
to the stated row and the row was saved, giving the new database
state. -/
inductive AddOutcome where
  | noRows
  | added (row_id : Nat) (db2 : List DbRow)
deriving Repr

/-- The embedding of add_entry, src lines 308-329 (the reload and
re-selection that follow do not touch storage).  The guard at line 309
tests the flattened profile list self.profiles, not the row set; when
it passes, the owning row of self.profiles[0] - the alphabetically
first entry of the sorted index - receives the seed record. -/
def add_entry (connOk : Bool) (db : List DbRow) : Option AddOutcome :=
  match load_profiles_from_db db with
  | none => none
  | some [] => some .noRows
  | some (e :: _) =>
    match add_to_doc e.entire_json with
    | none => none
    | some doc2 => some (.added e.db_row_id (save_profile_to_db connOk db e.db_row_id doc2).2)

/-- Python regex class \w on its ASCII fragment: letters, digits and
the underscore (src line 407 keeps these). -/
def isPyWordChar (c : Char) : Bool := c.isAlphanum || c = '_'

/-- Python regex class \s and str.strip whitespace on the ASCII
fragment: space, tab, newline, carriage return, vertical tab, form
feed. -/
def isPySpace (c : Char) : Bool :=
  c = ' ' || c = '\t' || c = '\n' || c = '\r' || c = Char.ofNat 11 || c = Char.ofNat 12

/-- Python str.strip(): drop leading and trailing whitespace. -/
def pyStrip (l : List Char) : List Char :=
  ((l.dropWhile isPySpace).reverse.dropWhile isPySpace).reverse

/-- Line 406: app_name = prof.get("name", "").strip() or "app_unknown",
applied to the (string) value of the name field. -/
def app_name_of (name_field : String) : String :=
  if pyStrip name_field.data = [] then "app_unknown"
  else String.mk (pyStrip name_field.data)

/-- Line 407: safe_name = re.sub of characters outside \w, \s and the
hyphen, then strip, then spaces to underscores, with "icon" when the
result is empty.  Only the space character is replaced; other kept
whitespace (an interior tab, say) stays as it is. -/
def safe_name_of (app_name : String) : String :=
  let subbed := app_name.data.filter fun c => isPyWordChar c || isPySpace c || c = '-'
  let replaced := (pyStrip subbed).map fun c => if c = ' ' then '_' else c
  if replaced = [] then "icon" else String.mk replaced

/-- Index of the last character satisfying the predicate. -/
def lastIdxAux (pred : Char → Bool) : List Char → Nat → Option Nat → Option Nat
  | [], _, acc => acc
  | c :: cs, i, acc => lastIdxAux pred cs (i + 1) (if pred c then some i else acc)

/-- Search helper for os.path.splitext: rightmost occurrence. -/
def lastIdx (pred : Char → Bool) (l : List Char) : Option Nat := lastIdxAux pred l 0 none

/-- Windows path separators recognized by os.path. -/
def isSep (c : Char) : Bool := c = '/' || c = '\\'

/-- Root part of os.path.splitext (src line 411): cut at the last dot
when it lies after the last separator and the basename has some
non-dot character before it; otherwise the whole path (no extension). -/
def splitextRoot (p : String) : String :=
  let cs := p.data
  let sepIndex : Int := match lastIdx isSep cs with | some i => (i : Int) | none => -1
  let dotIndex : Int := match lastIdx (fun c => c = '.') cs with | some i => (i : Int) | none => -1
  if sepIndex < dotIndex then
    let nameStart := (sepIndex + 1).toNat
    let dotN := dotIndex.toNat
    if ((cs.drop nameStart).take (dotN - nameStart)).any (fun c => c ≠ '.') then
      String.mk (cs.take dotN)
    else p
  else p

/-- Directory join of os.path.join for a relative file name, the
separator abstracted as "/". -/
def joinPath (d f : String) : String := d ++ "/" ++ f

/-- The bound-path computation of browse_icon, src lines 403-414: an
existing non-blank posterPath keeps its base with the extension forced
to .bmp; otherwise a new file in the cache directory named by the
sanitized profile name.  Returns none where str methods are called on
a non-string field value, which load-produced entries never exhibit
for name (posterPath of such an entry could be any JSON value, and a
non-string one raises at line 405). -/
def browse_icon_path (prof : Json) (icon_cache_folder : String) : Option String :=
  match prof with
  | .obj pfs =>
    match (lookupField pfs "posterPath").getD (.str "") with
    | .str e0 =>
      match (lookupField pfs "name").getD (.str "") with
      | .str n0 =>
        let existing_path := String.mk (pyStrip e0.data)
        let safe_name := safe_name_of (app_name_of n0)
        if existing_path ≠ "" then some (splitextRoot existing_path ++ ".bmp")
        else some (joinPath icon_cache_folder (safe_name ++ ".bmp"))
      | _ => none
    | _ => none
  | _ => none

/-- Write of a string into the posterPath field of the aliased profile
record (src lines 424 and 434). -/
def setPoster (v : String) : Json → Json
  | .obj pfs => .obj (setField pfs "posterPath" (.str v))
  | other => other

/-- In-memory state the icon callbacks act on: the database as last
written, and the selected entry's owning row, document and position in
the owning list. -/
structure AppState where
  db : List DbRow
  row_id : Nat
  doc : Json
  idx : Nat

/-- The embedding of the tail of browse_icon, src lines 424-426, after
the bitmap was written to final_path: the bound path is stored in the
in-memory profile record (and the path entry widget); no call of
save_profile_to_db occurs in this callback, so the database is left as
it was. -/
def browse_icon_commit (st : AppState) (final_path : String) : AppState :=
  { st with doc := mutateProfileAt st.doc st.idx (setPoster final_path) }

/-- The embedding of clear_icon, src lines 428-437: posterPath is
emptied in the in-memory profile record only; no call of
save_profile_to_db occurs in this callback. -/
def clear_icon (st : AppState) : AppState :=
  { st with doc := mutateProfileAt st.doc st.idx (setPoster "") }

/-- Sample database for witnesses: two parseable rows with three
well-formed profiles (one of them nameless) and one skipped row. -/
def docBeta : Json :=
  .obj [("applications", .obj [("applications", .arr [.obj [("name", .str "beta")], .obj []])])]

/-- Second sample row document, alphabetically first profile. -/
def docAlpha : Json :=
  .obj [("applications", .obj [("applications", .arr [.obj [("name", .str "Alpha")]])])]

/-- Sample row set for the load witness. -/
def rowsSample : List DbRow := [(1, .doc docBeta), (2, .absent), (3, .doc docAlpha)]

/-- Flattening of rowsSample in row order. -/
def entriesSample : List Entry :=
  [⟨1, docBeta, .obj [("name", .str "beta")]⟩, ⟨1, docBeta, .obj []⟩,
    ⟨3, docAlpha, .obj [("name", .str "Alpha")]⟩]

/-- Row document whose applications array holds a non-object element;
the document is valid JSON and its row parses fine. -/
def rogueDoc : Json :=
  .obj [("applications", .obj [("applications", .arr [.obj [("name", .str "A")], .str "rogue"])])]

/-- Well-formed companion row document. -/
def goodDoc : Json :=
  .obj [("applications", .obj [("applications", .arr [.obj [("name", .str "B")]])])]

/-- Profile record with passthrough fields for the update witness. -/
def pfsSample : List (String × Json) :=
  [("applicationId", .str "x1"), ("name", .str "Old"), ("applicationPath", .str "old.exe"),
    ("posterPath", .str "old.bmp"), ("isCustom", .bool true)]

/-- Owning list for the update witness: a sibling then the edited
record. -/
def lSample : List Json := [.obj [("name", .str "Sibling")], .obj pfsSample]

/-- Applications object with a passthrough field. -/
def afsSample : List (String × Json) := [("applications", .arr lSample), ("extra", .null)]

/-- Owning document fields with a passthrough top-level field. -/
def fsSample : List (String × Json) := [("version", .num 3), ("applications", .obj afsSample)]

/-- Database for the update witness: the owning row and one other. -/
def dbSample : List DbRow := [(9, .doc (.obj fsSample)), (10, .absent)]

/-- Record deleted in the witness; it occurs twice in the list. -/
def profDup : Json := .obj [("name", .str "D")]

/-- Owning list for the delete witness, with a duplicate of the
deleted record around a sibling. -/
def lDup : List Json := [profDup, .obj [("name", .str "E")], profDup]

/-- Applications object of the delete witness. -/
def afsDup : List (String × Json) := [("applications", .arr lDup)]

/-- Owning document fields of the delete witness. -/
def fsDup : List (String × Json) := [("applications", .obj afsDup)]

/-- Database of the delete witness. -/
def dbDup : List DbRow := [(5, .doc (.obj fsDup))]

/-- Row document that parses fine but contributes zero profiles. -/
def docNoProfiles : Json := .obj [("applications", .obj [("applications", .arr [])])]

/-- Profile of the second sample row, alphabetically last. -/
def profZebra : Json := .obj [("name", .str "Zebra")]

/-- Profile of the second row, alphabetically first. -/
def profApple : Json := .obj [("name", .str "Apple")]

/-- Document of row 1, owning only the Zebra profile. -/
def docZebra : Json := .obj [("applications", .obj [("applications", .arr [profZebra])])]

/-- Document of row 2, owning only the Apple profile. -/
def docApple : Json := .obj [("applications", .obj [("applications", .arr [profApple])])]

/-- Two-row database where the first fetched row does not own the
alphabetically first profile. -/
def dbTwoRows : List DbRow := [(1, .doc docZebra), (2, .doc docApple)]

/-- Entry of the Apple profile, first in the sorted index. -/
def entryApple : Entry := ⟨2, docApple, profApple⟩

/-- Entry of the Zebra profile, second in the sorted index. -/
def entryZebra : Entry := ⟨1, docZebra, profZebra⟩

/-- Row 2's document after the seed record was appended. -/
def docAppleAfterAdd : Json :=
  .obj [("applications", .obj [("applications", .arr [profApple, new_profile])])]

/-- Observation function: the posterPath value of the profile at
position i of a document's applications list. -/
def posterPathAt (doc : Json) (i : Nat) : Option Json :=
  match doc with
  | .obj fs =>
    match lookupField fs "applications" with
    | some (.obj afs) =>
      match lookupField afs "applications" with
      | some (.arr l) =>
        match l[i]? with
        | some (.obj pfs) => lookupField pfs "posterPath"
        | _ => none
      | _ => none
    | _ => none
  | _ => none

/-- Profile with an existing icon binding for the C8 state. -/
def profIcon : Json := .obj [("name", .str "G"), ("posterPath", .str "C/old.bmp")]

/-- Owning document of profIcon. -/
def docIcon : Json := .obj [("applications", .obj [("applications", .arr [profIcon])])]

/-- App state whose database and in-memory document agree before the
icon mutation. -/
def stIcon : AppState := ⟨[(4, Blob.doc docIcon)], 4, docIcon, 0⟩

theorem strLe_total : ∀ a b : List Char, strLe a b = true ∨ strLe b a = true
  | [], _ => .inl rfl
  | _ :: _, [] => .inr rfl
  | a :: as, b :: bs => by
    by_cases hab : a = b
    · subst hab
      rcases strLe_total as bs with h | h
      · exact .inl (by simp only [strLe, if_pos rfl]; exact h)
      · exact .inr (by simp only [strLe, if_pos rfl]; exact h)
    · have hba : ¬ b = a := fun hh => hab hh.symm
      rcases lt_or_gt_of_ne hab with h | h
      · exact .inl (by simp only [strLe, if_neg hab]; exact decide_eq_true h)
      · exact .inr (by simp only [strLe, if_neg hba]; exact decide_eq_true h)

theorem strLe_trans : ∀ a b c : List Char,
    strLe a b = true → strLe b c = true → strLe a c = true
  | [], _, _, _, _ => rfl
  | _ :: _, [], _, hab, _ => by simp [strLe] at hab
  | _ :: _, _ :: _, [], _, hbc => by simp [strLe] at hbc
  | a :: as, b :: bs, c :: cs, hab, hbc => by
    by_cases h1 : a = b <;> by_cases h2 : b = c
    · subst h1; subst h2
      simp only [strLe, if_pos rfl] at hab hbc ⊢
      exact strLe_trans as bs cs hab hbc
    · subst h1
      simp only [strLe, if_neg h2] at hbc ⊢
      exact hbc
    · subst h2
      simp only [strLe, if_neg h1] at hab ⊢
      exact hab
    · simp only [strLe, if_neg h1, if_neg h2, decide_eq_true_eq] at hab hbc
      have h3 : a < c := lt_trans hab hbc
      have hac : ¬ a = c := fun hh => absurd (hh ▸ hbc) (lt_asymm (hh ▸ hab))
      simp only [strLe, if_neg hac]
      exact decide_eq_true h3

theorem lookupField_setField_self (fs : List (String × Json)) (k : String) (v : Json) :
    lookupField (setField fs k v) k = some v := by
  induction fs with
  | nil => simp [setField, lookupField]
  | cons hd tl ih =>
    obtain ⟨k0, v0⟩ := hd
    by_cases h : k0 = k <;> simp [setField, lookupField, h, ih]

theorem lookupField_setField_ne (fs : List (String × Json)) (k : String) (v : Json)
    (k2 : String) (h : k2 ≠ k) :
    lookupField (setField fs k v) k2 = lookupField fs k2 := by
  have hk : ¬ k = k2 := fun hh => h hh.symm
  induction fs with
  | nil => simp [setField, lookupField, hk]
  | cons hd tl ih =>
    obtain ⟨k0, v0⟩ := hd
    by_cases h0 : k0 = k
    · subst h0
      simp [setField, lookupField, hk]
    · by_cases h2 : k0 = k2 <;> simp [setField, lookupField, h0, h2, ih, h]

theorem length_updateAt (f : Json → Json) (l : List Json) (i : Nat) :
    (updateAt f l i).length = l.length := by
  induction l generalizing i with
  | nil => simp [updateAt]
  | cons x xs ih => cases i <;> simp [updateAt, ih]

theorem getElem?_updateAt_ne (f : Json → Json) (l : List Json) (i j : Nat) (h : j ≠ i) :
    (updateAt f l i)[j]? = l[j]? := by
  induction l generalizing i j with
  | nil => simp [updateAt]
  | cons x xs ih =>
    cases i with
    | zero =>
      cases j with
      | zero => exact absurd rfl h
      | succ j2 => simp [updateAt]
    | succ i2 =>
      cases j with
      | zero => simp [updateAt]
      | succ j2 =>
        simp only [updateAt, List.getElem?_cons_succ]
        exact ih i2 j2 fun hh => h (by rw [hh])

theorem getElem?_updateAt_self (f : Json → Json) (l : List Json) (i : Nat) :
    (updateAt f l i)[i]? = (l[i]?).map f := by
  induction l generalizing i with
  | nil => simp [updateAt]
  | cons x xs ih => cases i <;> simp [updateAt, ih]

theorem pyIn_iff (x : Json) (l : List Json) : pyIn x l = true ↔ x ∈ l := by
  simp only [pyIn, List.any_eq_true, decide_eq_true_eq]
  constructor
  · rintro ⟨y, hy, rfl⟩; exact hy
  · intro h; exact ⟨x, h, rfl⟩

theorem pyRemove_of_not_mem (x : Json) (l : List Json) (h : x ∉ l) : pyRemove x l = l := by
  induction l with
  | nil => rfl
  | cons y ys ih =>
    have hy : ¬ y = x := fun hh => h (hh ▸ List.mem_cons_self y ys)
    have hx : x ∉ ys := fun hh => h (List.mem_cons_of_mem y hh)
    simp [pyRemove, hy, ih hx]

theorem pyRemove_first (x : Json) (l : List Json) (h : x ∈ l) :
    ∃ k, l[k]? = some x ∧ (∀ m, m < k → l[m]? ≠ some x) ∧
      pyRemove x l = l.take k ++ l.drop (k + 1) := by
  induction l with
  | nil => cases h
  | cons y ys ih =>
    by_cases hy : y = x
    · refine ⟨0, by simp [hy], fun m hm => absurd hm (by omega), ?_⟩
      simp [pyRemove, hy]
    · have hx : x ∈ ys := by
        rcases List.mem_cons.mp h with h1 | h1
        · exact absurd h1.symm hy
        · exact h1
      obtain ⟨k, h1, h2, h3⟩ := ih hx
      refine ⟨k + 1, by simpa using h1, ?_, ?_⟩
      · intro m hm
        cases m with
        | zero => simpa using hy
        | succ m2 => simpa using h2 m2 (by omega)
      · simp [pyRemove, hy, h3]

theorem mutateProfileAt_eq (fs afs : List (String × Json)) (l : List Json) (i : Nat)
    (f : Json → Json)
    (h1 : lookupField fs "applications" = some (.obj afs))
    (h2 : lookupField afs "applications" = some (.arr l)) :
    mutateProfileAt (.obj fs) i f
      = .obj (setField fs "applications"
          (.obj (setField afs "applications" (.arr (updateAt f l i))))) := by
  simp [mutateProfileAt, h1, h2]

theorem collectRow_mem {rid : Nat} {j : Json} {es : List Entry} {e : Entry}
    (hc : collectRow rid j = some es) (he : e ∈ es) :
    ∃ fs afs al, j = .obj fs ∧ e.entire_json = .obj fs ∧ e.db_row_id = rid
      ∧ lookupField fs "applications" = some (.obj afs)
      ∧ lookupField afs "applications" = some (.arr al)
      ∧ e.profile ∈ al := by
  unfold collectRow at hc
  split at hc
  · rename_i fs
    split at hc
    · rename_i afs hafs
      split at hc
      · rename_i al hal
        injection hc with hes
        subst hes
        obtain ⟨prof, hprof, rfl⟩ := List.mem_map.mp he
        exact ⟨fs, afs, al, rfl, rfl, rfl, hafs, hal, hprof⟩
      · injection hc with hes; subst hes; cases he
      · injection hc with hes; subst hes; cases he
    · injection hc with hes; subst hes; cases he
    · injection hc with hes; subst hes; cases he
  · cases hc

theorem collectRows_mem {rows : List DbRow} {es : List Entry} {e : Entry}
    (hc : collectRows rows = some es) (he : e ∈ es) :
    ∃ fs afs al, e.entire_json = .obj fs
      ∧ lookupField fs "applications" = some (.obj afs)
      ∧ lookupField afs "applications" = some (.arr al)
      ∧ e.profile ∈ al := by
  induction rows generalizing es with
  | nil => injection hc with h; subst h; cases he
  | cons r rest ih =>
    obtain ⟨rid, b⟩ := r
    cases b with
    | absent => exact ih hc he
    | malformed => exact ih hc he
    | doc j =>
      simp only [collectRows] at hc
      split at hc
      · cases hc
      · rename_i es1 hes1
        split at hc
        · cases hc
        · rename_i es2 hes2
          injection hc with hes
          subst hes
          rcases List.mem_append.mp he with h1 | h1
          · obtain ⟨fs, afs, al, _, hj, _, ha, hb, hp⟩ := collectRow_mem hes1 h1
            exact ⟨fs, afs, al, hj, ha, hb, hp⟩
          · exact ih hes2 h1

theorem load_mem_structure {rows : List DbRow} {l : List Entry} {e : Entry}
    (h : load_profiles_from_db rows = some l) (he : e ∈ l) :
    ∃ fs afs al, e.entire_json = .obj fs
      ∧ lookupField fs "applications" = some (.obj afs)
      ∧ lookupField afs "applications" = some (.arr al)
      ∧ e.profile ∈ al := by
  unfold load_profiles_from_db at h
  split at h
  · cases h
  · rename_i es hcr
    split at h
    · cases h
    · injection h with hl
      subst hl
      exact collectRows_mem hcr ((List.perm_insertionSort entryLe es).mem_iff.mp he)

theorem add_to_doc_eq {fs afs : List (String × Json)} {al : List Json}
    (h1 : lookupField fs "applications" = some (.obj afs))
    (h2 : lookupField afs "applications" = some (.arr al)) :
    add_to_doc (.obj fs) = some (.obj (setField fs "applications"
      (.obj (setField afs "applications" (.arr (al ++ [new_profile])))))) := by
  simp [add_to_doc, h1, h2]

theorem collectRows_skip_malformed :
    ∀ (pre post : List DbRow) (rid : Nat),
    collectRows (pre ++ (rid, Blob.malformed) :: post) = collectRows (pre ++ post)
  | [], _, _ => rfl
  | (_, .absent) :: rest, post, rid => collectRows_skip_malformed rest post rid
  | (_, .malformed) :: rest, post, rid => collectRows_skip_malformed rest post rid
  | (rid2, .doc j) :: rest, post, rid => by
    show collectRows ((rid2, Blob.doc j) :: (rest ++ (rid, Blob.malformed) :: post))
      = collectRows ((rid2, Blob.doc j) :: (rest ++ post))
    simp only [collectRows, collectRows_skip_malformed rest post rid]

theorem collectRows_skip_absent :
    ∀ (pre post : List DbRow) (rid : Nat),
    collectRows (pre ++ (rid, Blob.absent) :: post) = collectRows (pre ++ post)
  | [], _, _ => rfl
  | (_, .absent) :: rest, post, rid => collectRows_skip_absent rest post rid
  | (_, .malformed) :: rest, post, rid => collectRows_skip_absent rest post rid
  | (rid2, .doc j) :: rest, post, rid => by
    show collectRows ((rid2, Blob.doc j) :: (rest ++ (rid, Blob.absent) :: post))
      = collectRows ((rid2, Blob.doc j) :: (rest ++ post))
    simp only [collectRows, collectRows_skip_absent rest post rid]

/-- C1: for every database state whose rows flatten to the entry list
es with every profile well-formed (each sort key computes: the profile
is an object whose name value, if any, is a string), load returns
exactly es.length entries - a permutation of es - sorted by the
case-insensitively lowered name, the empty key standing in for an
absent name field. -/
theorem load_returns_all_profiles_sorted (rows : List DbRow) (es : List Entry)
    (hc : collectRows rows = some es) (hk : (allSortKeys es).isSome = true) :
    ∃ l, load_profiles_from_db rows = some l
      ∧ l.length = es.length ∧ l.Perm es ∧ List.Sorted entryLe l := by
  haveI : IsTotal Entry entryLe := ⟨fun a b => strLe_total (entryKey a) (entryKey b)⟩
  haveI : IsTrans Entry entryLe :=
    ⟨fun a b c => strLe_trans (entryKey a) (entryKey b) (entryKey c)⟩
  obtain ⟨ks, hks⟩ := Option.isSome_iff_exists.mp hk
  refine ⟨List.insertionSort entryLe es, ?_,
    (List.perm_insertionSort entryLe es).length_eq,
    List.perm_insertionSort entryLe es, List.sorted_insertionSort entryLe es⟩
  simp [load_profiles_from_db, hc, hks]

/-- Witness for C1 at rowsSample: three well-formed profiles across
two parseable rows load as three sorted entries. -/
theorem load_returns_all_profiles_sorted_witness :
    ∃ l, load_profiles_from_db rowsSample = some l
      ∧ l.length = entriesSample.length ∧ l.Perm entriesSample
      ∧ List.Sorted entryLe l :=
  load_returns_all_profiles_sorted rowsSample entriesSample rfl rfl

/-- C9: a row whose BLOB is falsy, or fails UTF-8 decoding or JSON
parsing, is skipped wherever it sits in the row sequence: the load
result is exactly that of the remaining rows, so per-row decode
failures never abort the load of the other rows. -/
theorem load_isolates_row_decode_failures (pre post : List DbRow) (rid : Nat) :
    load_profiles_from_db (pre ++ (rid, Blob.malformed) :: post)
        = load_profiles_from_db (pre ++ post)
    ∧ load_profiles_from_db (pre ++ (rid, Blob.absent) :: post)
        = load_profiles_from_db (pre ++ post) := by
  constructor
  · unfold load_profiles_from_db
    rw [collectRows_skip_malformed]
  · unfold load_profiles_from_db
    rw [collectRows_skip_absent]

/-- C10: the per-row isolation covers only decode and parse errors.  A
valid-JSON row whose applications array contains a string element is
collected fine (two elements), but the whole load then fails at the
sort-key computation - it returns nothing at all instead of skipping
the element or only its row, even though a second, well-formed row is
present and loads on its own. -/
theorem load_aborts_on_nonobject_list_element :
    collectRows [(7, Blob.doc rogueDoc), (8, Blob.doc goodDoc)]
      = some [⟨7, rogueDoc, .obj [("name", .str "A")]⟩, ⟨7, rogueDoc, .str "rogue"⟩,
          ⟨8, goodDoc, .obj [("name", .str "B")]⟩]
    ∧ load_profiles_from_db [(7, Blob.doc rogueDoc), (8, Blob.doc goodDoc)] = none
    ∧ load_profiles_from_db [(8, Blob.doc goodDoc)]
        = some [⟨8, goodDoc, .obj [("name", .str "B")]⟩] :=
  ⟨rfl, rfl, rfl⟩

/-- C2: for every entry (located at position i of its owning list) and
every update, save_changes rewrites exactly the name, applicationPath
and posterPath fields of that profile record; every other field of the
record, every sibling element of the list, every other field of the
applications object and every other top-level field of the owning
document are unchanged, and the owning row is saved with precisely
this document while every other row keeps its blob. -/
theorem update_touches_only_editable_fields
    (db : List DbRow) (row_id : Nat) (fs afs pfs : List (String × Json)) (l : List Json)
    (i : Nat) (n a p : String)
    (h1 : lookupField fs "applications" = some (.obj afs))
    (h2 : lookupField afs "applications" = some (.arr l))
    (hp : l[i]? = some (.obj pfs)) :
    ∃ fs2 afs2 l2 pfs2,
      mutateProfileAt (.obj fs) i (setProfileFields n a p) = .obj fs2
      ∧ save_changes true db row_id (.obj fs) i n a p
          = (.ok, db.map fun r => if r.1 = row_id then (r.1, Blob.doc (.obj fs2)) else r)
      ∧ (∀ k, k ≠ "applications" → lookupField fs2 k = lookupField fs k)
      ∧ lookupField fs2 "applications" = some (.obj afs2)
      ∧ (∀ k, k ≠ "applications" → lookupField afs2 k = lookupField afs k)
      ∧ lookupField afs2 "applications" = some (.arr l2)
      ∧ l2.length = l.length
      ∧ (∀ j, j ≠ i → l2[j]? = l[j]?)
      ∧ l2[i]? = some (.obj pfs2)
      ∧ lookupField pfs2 "name" = some (.str n)
      ∧ lookupField pfs2 "applicationPath" = some (.str a)
      ∧ lookupField pfs2 "posterPath" = some (.str p)
      ∧ ∀ k, k ≠ "name" → k ≠ "applicationPath" → k ≠ "posterPath" →
          lookupField pfs2 k = lookupField pfs k := by
  refine ⟨setField fs "applications"
      (.obj (setField afs "applications" (.arr (updateAt (setProfileFields n a p) l i)))),
    setField afs "applications" (.arr (updateAt (setProfileFields n a p) l i)),
    updateAt (setProfileFields n a p) l i,
    setField (setField (setField pfs "name" (.str n)) "applicationPath" (.str a))
      "posterPath" (.str p),
    mutateProfileAt_eq fs afs l i _ h1 h2, ?_, ?_, ?_, ?_, ?_, ?_, ?_, ?_, ?_, ?_, ?_, ?_⟩
  · unfold save_changes
    rw [mutateProfileAt_eq fs afs l i _ h1 h2]
    rfl
  · exact fun k hk => lookupField_setField_ne fs "applications" _ k hk
  · exact lookupField_setField_self fs "applications" _
  · exact fun k hk => lookupField_setField_ne afs "applications" _ k hk
  · exact lookupField_setField_self afs "applications" _
  · exact length_updateAt _ l i
  · exact fun j hj => getElem?_updateAt_ne _ l i j hj
  · rw [getElem?_updateAt_self, hp]
    rfl
  · rw [lookupField_setField_ne _ "posterPath" _ "name" (by decide),
      lookupField_setField_ne _ "applicationPath" _ "name" (by decide),
      lookupField_setField_self]
  · rw [lookupField_setField_ne _ "posterPath" _ "applicationPath" (by decide),
      lookupField_setField_self]
  · exact lookupField_setField_self _ "posterPath" _
  · intro k hk1 hk2 hk3
    rw [lookupField_setField_ne _ "posterPath" _ k hk3,
      lookupField_setField_ne _ "applicationPath" _ k hk2,
      lookupField_setField_ne _ "name" _ k hk1]

/-- Witness for C2 at a concrete entry with passthrough fields and a
sibling. -/
theorem update_touches_only_editable_fields_witness :
    ∃ fs2 afs2 l2 pfs2,
      mutateProfileAt (.obj fsSample) 1 (setProfileFields "New" "new.exe" "new.bmp") = .obj fs2
      ∧ save_changes true dbSample 9 (.obj fsSample) 1 "New" "new.exe" "new.bmp"
          = (.ok, dbSample.map fun r => if r.1 = 9 then (r.1, Blob.doc (.obj fs2)) else r)
      ∧ (∀ k, k ≠ "applications" → lookupField fs2 k = lookupField fsSample k)
      ∧ lookupField fs2 "applications" = some (.obj afs2)
      ∧ (∀ k, k ≠ "applications" → lookupField afs2 k = lookupField afsSample k)
      ∧ lookupField afs2 "applications" = some (.arr l2)
      ∧ l2.length = lSample.length
      ∧ (∀ j, j ≠ 1 → l2[j]? = lSample[j]?)
      ∧ l2[1]? = some (.obj pfs2)
      ∧ lookupField pfs2 "name" = some (.str "New")
      ∧ lookupField pfs2 "applicationPath" = some (.str "new.exe")
      ∧ lookupField pfs2 "posterPath" = some (.str "new.bmp")
      ∧ ∀ k, k ≠ "name" → k ≠ "applicationPath" → k ≠ "posterPath" →
          lookupField pfs2 k = lookupField pfsSample k :=
  update_touches_only_editable_fields dbSample 9 fsSample afsSample pfsSample lSample 1
    "New" "new.exe" "new.bmp" rfl rfl rfl

/-- C3: for every entry, delete removes exactly the first element of
the owning list that is structurally equal to the entry's profile
record; when no structurally-equal element exists the list is left
unchanged; in both cases the owning row is saved with the re-embedded
list (all other fields and rows untouched). -/
theorem delete_removes_first_structural_match
    (db : List DbRow) (row_id : Nat) (fs afs : List (String × Json)) (l : List Json)
    (prof : Json)
    (h1 : lookupField fs "applications" = some (.obj afs))
    (h2 : lookupField afs "applications" = some (.arr l)) :
    ∃ l2,
      delete_entry true db row_id (.obj fs) prof
        = some (.ok, db.map fun r => if r.1 = row_id then
            (r.1, Blob.doc (.obj (setField fs "applications"
              (.obj (setField afs "applications" (.arr l2)))))) else r)
      ∧ (prof ∈ l → ∃ k, l[k]? = some prof ∧ (∀ m, m < k → l[m]? ≠ some prof)
          ∧ l2 = l.take k ++ l.drop (k + 1))
      ∧ (prof ∉ l → l2 = l) := by
  refine ⟨if pyIn prof l then pyRemove prof l else l, ?_, ?_, ?_⟩
  · simp only [delete_entry, delete_entry_doc, h1, h2]
    rfl
  · intro hm
    obtain ⟨k, ha2, hb2, hc2⟩ := pyRemove_first prof l hm
    rw [if_pos ((pyIn_iff prof l).mpr hm)]
    exact ⟨k, ha2, hb2, hc2⟩
  · intro hm
    rw [if_neg (fun hh => hm ((pyIn_iff prof l).mp hh))]

/-- Witness for C3 at a list holding the deleted record twice: only
the first occurrence is removed and the row is saved. -/
theorem delete_removes_first_structural_match_witness :
    ∃ l2,
      delete_entry true dbDup 5 (.obj fsDup) profDup
        = some (.ok, dbDup.map fun r => if r.1 = 5 then
            (r.1, Blob.doc (.obj (setField fsDup "applications"
              (.obj (setField afsDup "applications" (.arr l2)))))) else r)
      ∧ (profDup ∈ lDup → ∃ k, lDup[k]? = some profDup
          ∧ (∀ m, m < k → lDup[m]? ≠ some profDup)
          ∧ l2 = lDup.take k ++ lDup.drop (k + 1))
      ∧ (profDup ∉ lDup → l2 = lDup) :=
  delete_removes_first_structural_match dbDup 5 fsDup afsDup lDup profDup rfl rfl

/-- Counterexample to C4: a database with one row (so "at least one
row exists") whose flattened profile list is empty still makes
add_entry signal the no-rows condition, because the guard at src line
309 tests self.profiles, not the row set. -/
theorem create_noRows_despite_existing_row :
    [((1 : Nat), Blob.doc docNoProfiles)].length = 1
    ∧ add_entry true [(1, Blob.doc docNoProfiles)] = some .noRows :=
  ⟨rfl, rfl⟩

/-- C4 amended: add_entry signals the no-rows condition exactly when
the loaded profile index is empty; whenever at least one profile entry
was loaded, it instead attaches the seed record to that entry's row. -/
theorem create_noRows_iff_empty_profile_index (connOk : Bool) (db : List DbRow) :
    (add_entry connOk db = some .noRows ↔ load_profiles_from_db db = some [])
    ∧ ∀ e rest, load_profiles_from_db db = some (e :: rest) →
        ∃ db2, add_entry connOk db = some (.added e.db_row_id db2) := by
  constructor
  · constructor
    · intro h
      unfold add_entry at h
      split at h
      · cases h
      · rename_i hl
        exact hl
      · split at h
        · cases h
        · injection h with hh
          cases hh
    · intro h
      unfold add_entry
      rw [h]
  · intro e rest h
    obtain ⟨fs, afs, al, hj, ha, hb, _⟩ := load_mem_structure h (List.mem_cons_self e rest)
    have hd : add_to_doc e.entire_json = some (.obj (setField fs "applications"
        (.obj (setField afs "applications" (.arr (al ++ [new_profile])))))) := by
      rw [hj]
      exact add_to_doc_eq ha hb
    simp only [add_entry, h, hd]
    exact ⟨_, rfl⟩

/-- Witness for the amended C4 at a non-empty index: add_entry attaches
the seed to the row owning the sorted index's first entry. -/
theorem create_noRows_iff_empty_profile_index_witness :
    ∃ db2, add_entry true dbTwoRows = some (.added entryApple.db_row_id db2) :=
  (create_noRows_iff_empty_profile_index true dbTwoRows).2 entryApple [entryZebra] rfl

/-- Counterexample to C5: loadAll fetches row 1 first, yet the seed
record lands in row 2 - the row owning the alphabetically first
profile of the sorted index - and row 1's document is untouched. -/
theorem create_ignores_first_loadAll_row :
    dbTwoRows.head? = some (1, Blob.doc docZebra)
    ∧ add_entry true dbTwoRows
        = some (.added 2 [(1, Blob.doc docZebra), (2, Blob.doc docAppleAfterAdd)]) :=
  ⟨rfl, rfl⟩

/-- C5 amended: whenever the loaded index is non-empty, add_entry
appends the seed record to the applications list of the row owning the
first entry of the SORTED index (self.profiles[0], not the first row
fetched by the SELECT), re-embeds list and object, and saves exactly
that row. -/
theorem create_appends_to_first_sorted_entry_row
    (db : List DbRow) (e : Entry) (rest : List Entry)
    (fs afs : List (String × Json)) (al : List Json)
    (h : load_profiles_from_db db = some (e :: rest))
    (hj : e.entire_json = .obj fs)
    (ha : lookupField fs "applications" = some (.obj afs))
    (hb : lookupField afs "applications" = some (.arr al)) :
    ∃ fs2 afs2,
      add_entry true db = some (.added e.db_row_id
        (db.map fun r => if r.1 = e.db_row_id then (r.1, Blob.doc (.obj fs2)) else r))
      ∧ lookupField fs2 "applications" = some (.obj afs2)
      ∧ lookupField afs2 "applications" = some (.arr (al ++ [new_profile]))
      ∧ (∀ k, k ≠ "applications" → lookupField fs2 k = lookupField fs k)
      ∧ ∀ k, k ≠ "applications" → lookupField afs2 k = lookupField afs k := by
  refine ⟨setField fs "applications"
      (.obj (setField afs "applications" (.arr (al ++ [new_profile])))),
    setField afs "applications" (.arr (al ++ [new_profile])), ?_,
    lookupField_setField_self fs "applications" _,
    lookupField_setField_self afs "applications" _,
    fun k hk => lookupField_setField_ne fs "applications" _ k hk,
    fun k hk => lookupField_setField_ne afs "applications" _ k hk⟩
  have hd : add_to_doc e.entire_json = some (.obj (setField fs "applications"
      (.obj (setField afs "applications" (.arr (al ++ [new_profile])))))) := by
    rw [hj]
    exact add_to_doc_eq ha hb
  simp only [add_entry, h, hd]
  rfl

/-- Witness for the amended C5 at the two-row database: the append
goes to row 2 and only row 2 is rewritten. -/
theorem create_appends_to_first_sorted_entry_row_witness :
    ∃ fs2 afs2,
      add_entry true dbTwoRows = some (.added entryApple.db_row_id
        (dbTwoRows.map fun r =>
          if r.1 = entryApple.db_row_id then (r.1, Blob.doc (.obj fs2)) else r))
      ∧ lookupField fs2 "applications" = some (.obj afs2)
      ∧ lookupField afs2 "applications" = some (.arr ([profApple] ++ [new_profile]))
      ∧ (∀ k, k ≠ "applications" →
          lookupField fs2 k = lookupField [("applications", Json.obj [("applications", Json.arr [profApple])])] k)
      ∧ ∀ k, k ≠ "applications" →
          lookupField afs2 k = lookupField [("applications", Json.arr [profApple])] k :=
  create_appends_to_first_sorted_entry_row dbTwoRows entryApple [entryZebra]
    [("applications", Json.obj [("applications", Json.arr [profApple])])]
    [("applications", Json.arr [profApple])] [profApple] rfl rfl rfl rfl

/-- Counterexample to C6: an UPDATE whose row id matches nothing (here
the database is empty, or holds only row 3 while row 5 is addressed)
affects zero rows, yet save_profile_to_db reports success - the
affected-row count is never checked. -/
theorem saveRow_zero_row_match_reports_success :
    (save_profile_to_db true [] 5 (.obj [])).1 = .ok
    ∧ affectedRows [] 5 = 0
    ∧ (save_profile_to_db true [(3, Blob.absent)] 5 (.obj [])).1 = .ok
    ∧ affectedRows [(3, Blob.absent)] 5 = 0 :=
  ⟨rfl, rfl, rfl, rfl⟩

/-- C6 amended: save_profile_to_db fails (logged) exactly when the
database operation raises - serialization of a parsed JSON tree never
throws - and otherwise reports success without verifying the write:
the stored state replaces the blob of the matching rows, which may be
none. -/
theorem saveRow_failure_is_db_exception_only (connOk : Bool) (db : List DbRow)
    (row_id : Nat) (entire_json : Json) :
    (save_profile_to_db connOk db row_id entire_json).1
        = (if connOk then SaveOutcome.ok else SaveOutcome.dbError)
    ∧ (save_profile_to_db connOk db row_id entire_json).2
        = (if connOk then
            db.map (fun r => if r.1 = row_id then (r.1, Blob.doc entire_json) else r)
          else db) := by
  cases connOk <;> exact ⟨rfl, rfl⟩

/-- Counterexample to C7: an empty profile name yields the base
app_unknown (not the claimed icon default); an underscore survives the
character strip (the regex keeps word characters, underscore
included); an interior tab - whitespace - is kept as a tab, not turned
into an underscore (only the space character is replaced). -/
theorem icon_base_name_counterexamples :
    browse_icon_path (.obj [("name", Json.str ""), ("posterPath", Json.str "")]) "C"
      = some "C/app_unknown.bmp"
    ∧ browse_icon_path (.obj [("name", Json.str "a_b"), ("posterPath", Json.str "")]) "C"
      = some "C/a_b.bmp"
    ∧ browse_icon_path (.obj [("name", Json.str "a\tb"), ("posterPath", Json.str "")]) "C"
      = some "C/a\tb.bmp" :=
  ⟨rfl, rfl, rfl⟩

/-- C7 amended: with no prior binding (posterPath absent or blank),
the bitmap goes to C/baseName.bmp where baseName is the profile name
stripped of surrounding whitespace - replaced by app_unknown when that
is empty - with characters outside word characters (letters, digits,
underscore), whitespace and hyphen removed, stripped again, space
characters turned into underscores, and icon standing in when this
result is empty. -/
theorem icon_new_binding_base_name
    (pfs : List (String × Json)) (C s e0 : String)
    (hp : (lookupField pfs "posterPath").getD (.str "") = .str e0)
    (he : pyStrip e0.data = [])
    (hn : (lookupField pfs "name").getD (.str "") = .str s) :
    browse_icon_path (.obj pfs) C
      = some (joinPath C (safe_name_of (app_name_of s) ++ ".bmp"))
    ∧ (pyStrip s.data = [] → safe_name_of (app_name_of s) = "app_unknown")
    ∧ (pyStrip s.data ≠ [] → app_name_of s = String.mk (pyStrip s.data)) := by
  refine ⟨?_, ?_, ?_⟩
  · simp only [browse_icon_path, hp, hn, he]
    rw [if_neg (fun hh => hh rfl)]
  · intro h
    unfold app_name_of
    rw [if_pos h]
    rfl
  · intro h
    unfold app_name_of
    rw [if_neg h]

/-- Witness for the amended C7 at the spec's own example name. -/
theorem icon_new_binding_base_name_witness :
    browse_icon_path (.obj [("name", Json.str "My App!!"), ("posterPath", Json.str " ")]) "C"
      = some (joinPath "C" (safe_name_of (app_name_of "My App!!") ++ ".bmp"))
    ∧ (pyStrip "My App!!".data = [] → safe_name_of (app_name_of "My App!!") = "app_unknown")
    ∧ (pyStrip "My App!!".data ≠ []
        → app_name_of "My App!!" = String.mk (pyStrip "My App!!".data)) :=
  icon_new_binding_base_name [("name", Json.str "My App!!"), ("posterPath", Json.str " ")]
    "C" "My App!!" " " rfl rfl rfl

/-- Shared shape of both icon callbacks: writing a posterPath value
through the aliased record rewrites exactly that field of the profile
at the entry's position. -/
theorem posterPathAt_mutate_setPoster (fs afs pfs : List (String × Json)) (l : List Json)
    (i : Nat) (v : String)
    (ha : lookupField fs "applications" = some (.obj afs))
    (hb : lookupField afs "applications" = some (.arr l))
    (hp : l[i]? = some (.obj pfs)) :
    posterPathAt (mutateProfileAt (.obj fs) i (setPoster v)) i = some (.str v) := by
  rw [mutateProfileAt_eq fs afs l i _ ha hb]
  simp only [posterPathAt, lookupField_setField_self, getElem?_updateAt_self, hp,
    Option.map_some, setPoster]
  exact lookupField_setField_self pfs "posterPath" _

/-- Counterexample to C8: after clear_icon the in-memory binding is
empty, but the database still stores the old document with the old
binding - no save happened, so the on-disk row does not reflect the
mutation without a further explicit Save Changes. -/
theorem clear_icon_not_persisted :
    posterPathAt (clear_icon stIcon).doc 0 = some (.str "")
    ∧ (clear_icon stIcon).db = [(4, Blob.doc docIcon)]
    ∧ posterPathAt docIcon 0 = some (.str "C/old.bmp") :=
  ⟨rfl, rfl, rfl⟩

/-- C8 amended: browse_icon and clear_icon write the new binding (the
bound path, or the empty string) into the in-memory profile record
only; neither callback calls save_profile_to_db, so the database state
is untouched until save_changes is invoked separately. -/
theorem icon_mutations_update_memory_only
    (st : AppState) (final_path : String) (fs afs pfs : List (String × Json)) (l : List Json)
    (hd : st.doc = .obj fs)
    (ha : lookupField fs "applications" = some (.obj afs))
    (hb : lookupField afs "applications" = some (.arr l))
    (hp : l[st.idx]? = some (.obj pfs)) :
    (browse_icon_commit st final_path).db = st.db
    ∧ (clear_icon st).db = st.db
    ∧ posterPathAt (browse_icon_commit st final_path).doc st.idx = some (.str final_path)
    ∧ posterPathAt (clear_icon st).doc st.idx = some (.str "") := by
  refine ⟨rfl, rfl, ?_, ?_⟩
  · show posterPathAt (mutateProfileAt st.doc st.idx (setPoster final_path)) st.idx = _
    rw [hd]
    exact posterPathAt_mutate_setPoster fs afs pfs l st.idx final_path ha hb hp
  · show posterPathAt (mutateProfileAt st.doc st.idx (setPoster "")) st.idx = _
    rw [hd]
    exact posterPathAt_mutate_setPoster fs afs pfs l st.idx "" ha hb hp

/-- Witness for the amended C8 at the concrete state. -/
theorem icon_mutations_update_memory_only_witness :
    (browse_icon_commit stIcon "C/new.bmp").db = stIcon.db
    ∧ (clear_icon stIcon).db = stIcon.db
    ∧ posterPathAt (browse_icon_commit stIcon "C/new.bmp").doc stIcon.idx
        = some (.str "C/new.bmp")
    ∧ posterPathAt (clear_icon stIcon).doc stIcon.idx = some (.str "") :=
  icon_mutations_update_memory_only stIcon "C/new.bmp"
    [("applications", Json.obj [("applications", Json.arr [profIcon])])]
    [("applications", Json.arr [profIcon])]
    [("name", Json.str "G"), ("posterPath", Json.str "C/old.bmp")]
    [profIcon] rfl rfl rfl rfl
